import Mathlib

/-!
Shallow embedding of `src/src/libstd/sys/unix/fast_thread_local.rs`.

The Rust file implements fast thread-local storage cells (`Key<T>`) whose
contained value is destroyed at thread exit.  All interesting state is
per-thread: an `Option<T>` value slot plus two `Cell<bool>` flags,
`dtor_registered` and `dtor_running`.  We embed the per-thread view of one
cell as a Lean structure and the operations (`Key::get`,
`Key::register_dtor`, `destroy_value`, the Linux `register_dtor` dispatch,
`register_dtor_fallback` and its `run_dtors` drain loop) as pure functions
with explicit state passing.

`mem::needs_drop::<T>()` is a compile-time property of the type `T`; it is
embedded as an explicit boolean argument `needs_drop` threaded to the
operations that consult it.
-/

namespace FastThreadLocal

/-- Per-thread view of a `Key<T>`: the `inner: UnsafeCell<Option<T>>` value
slot together with the two thread-local flags `dtor_registered: Cell<bool>`
and `dtor_running: Cell<bool>`. -/
structure CellState (T : Type) where
  value : Option T
  dtor_registered : Bool
  dtor_running : Bool
deriving DecidableEq, Repr

namespace Key

/-- `Key::new()`: empty slot, both flags false. -/
def new (T : Type) : CellState T :=
  { value := none, dtor_registered := false, dtor_running := false }

/-- `Key::register_dtor` (the private method): if `!mem::needs_drop::<T>()`
or `dtor_registered` is already set, do nothing; otherwise invoke the
platform `register_dtor` (handing it `self` and `destroy_value::<T>`) and
set `dtor_registered`.  The returned boolean records whether the platform
registrar was actually invoked by this call. -/
def registerDtor {T : Type} (needs_drop : Bool) (s : CellState T) :
    CellState T × Bool :=
  if !needs_drop || s.dtor_registered then (s, false)
  else ({ s with dtor_registered := true }, true)

end Key

/-- Result of one `Key::get` call: `slot = none` is the `None`
("unavailable") return; `slot = some v` is `Some(&self.inner)` where `v` is
the slot's current content.  `state` is the cell's per-thread state after
the call and `registered` records whether this call reached the platform
registrar. -/
structure GetResult (T : Type) where
  slot : Option (Option T)
  state : CellState T
  registered : Bool
deriving DecidableEq, Repr

namespace Key

/-- `Key::get`: if `mem::needs_drop::<T>() && self.dtor_running.get()`
return `None`; otherwise call `self.register_dtor()` and return
`Some(&self.inner)`. -/
def get {T : Type} (needs_drop : Bool) (s : CellState T) : GetResult T :=
  if needs_drop && s.dtor_running then
    { slot := none, state := s, registered := false }
  else
    let p := registerDtor needs_drop s
    { slot := some p.1.value, state := p.1, registered := p.2 }

end Key

/-- The caller of `get` writing value `v` through the returned slot handle
(`&'static UnsafeCell<Option<T>>`): sets the slot to `Some(v)`. -/
def setValue {T : Type} (s : CellState T) (v : T) : CellState T :=
  { s with value := some v }

/-- Iterate `Key.get` `n` times on the same thread, counting how many of
the calls reached the platform registrar. -/
def getIter {T : Type} (needs_drop : Bool) : CellState T → Nat → CellState T × Nat
  | s, 0 => (s, 0)
  | s, n + 1 =>
    let r := Key.get needs_drop s
    let p := getIter needs_drop r.state n
    (p.1, (if r.registered then 1 else 0) + p.2)

/-- Observable actions of the `destroy_value::<T>` trampoline, in program
order: setting `dtor_running`, the macOS `ptr::read` of the slot (move the
value out, then drop the moved copy), and the non-macOS
`ptr::drop_in_place` on the slot. -/
inductive DestroyStep where
  | setDtorRunning
  | moveOut
  | dropInPlace
deriving DecidableEq, Repr

/-- Result of running `destroy_value::<T>` on a cell: the cell state after
the trampoline returns, the value that was consumed (dropped), and the
trace of observable actions in the order the code performs them. -/
structure DestroyResult (T : Type) where
  state : CellState T
  consumed : Option T
  steps : List DestroyStep
deriving DecidableEq, Repr

/-- `destroy_value::<T>(ptr)`: first set `dtor_running` to true, then
consume the contained value — via `ptr::read` (move out of the slot) when
`cfg!(target_os = "macos")`, via `ptr::drop_in_place` otherwise.  Neither
consumption writes to the slot or to `dtor_registered`: `ptr::read` and
`drop_in_place` leave the slot's bits in place, so `value` is unchanged in
the embedded state. -/
def destroy_value {T : Type} (macos : Bool) (s : CellState T) : DestroyResult T :=
  let s1 : CellState T := { s with dtor_running := true }
  if macos then
    { state := s1, consumed := s1.value,
      steps := [DestroyStep.setDtorRunning, DestroyStep.moveOut] }
  else
    { state := s1, consumed := s1.value,
      steps := [DestroyStep.setDtorRunning, DestroyStep.dropInPlace] }

/-!
The fallback backend (`register_dtor_fallback` / `run_dtors`, compiled on
linux and fuchsia).  The per-thread OS TLS slot `DTORS` holds either null
or a pointer to a `Vec` of `(*mut u8, unsafe extern fn(*mut u8))` pairs; we
embed it as `Option (List P)` for an abstract pair type `P`.  Running a
destructor pair may itself register fresh pairs; that effect is embedded as
a function `f : P → List P` giving, for each pair, the list of pairs its
execution registers, in order.
-/

/-- Appending one pair to the `DTORS` slot along the successful path of
`register_dtor_fallback`: if the slot is null a fresh empty list is
allocated and installed first, then the pair is pushed. -/
def pushDtor {P : Type} (key : Option (List P)) (p : P) : Option (List P) :=
  match key with
  | none => some [p]
  | some l => some (l ++ [p])

/-- `register_dtor_fallback(t, dtor)` with its allocation made explicit.

Modelled from the spec: the `box Vec::new()` allocation of the per-thread
list lives in the host allocator, outside this file; the spec says its
failure "is fatal to the registration attempt and must surface
synchronously to the caller rather than being swallowed".  We therefore
thread an `alloc_ok` input and return `none` (failure surfaced to the
caller, nothing registered) when the slot is null and allocation fails;
otherwise `some` of the updated slot. -/
def register_dtor_fallback {P : Type} (alloc_ok : Bool) (key : Option (List P))
    (p : P) : Option (Option (List P)) :=
  match key with
  | none => if alloc_ok then some (some [p]) else none
  | some l => some (some (l ++ [p]))

/-- Effect on the `DTORS` slot of the call `dtor(ptr)` made by `run_dtors`
for one pair `p`: each pair in `f p` is registered in order through the
fallback registration path (allocation assumed to succeed). -/
def runOne {P : Type} (f : P → List P) (p : P) (key : Option (List P)) :
    Option (List P) :=
  (f p).foldl pushDtor key

/-- One pass of `run_dtors`'s inner `for` loop: run every pair of the
drained list `l` in order, threading the `DTORS` slot (where fresh
registrations accumulate).  Returns the slot afterwards and the trace of
pairs run, in order. -/
def runPass {P : Type} (f : P → List P) : List P → Option (List P) →
    Option (List P) × List P
  | [], key => (key, [])
  | p :: rest, key =>
    let key1 := runOne f p key
    let q := runPass f rest key1
    (q.1, p :: q.2)

/-- `run_dtors(ptr)`: `while !ptr.is_null()` take ownership of the list,
run every pair in it in order, then reload `ptr` from `DTORS` and null the
slot out, and loop.  The OS TLS machinery nulls the slot before invoking
the destructor, so every pass starts with a null `DTORS` slot.  The loop
has no bound in the source; `fuel` bounds it here, and the boolean result
records whether the loop reached `ptr.is_null()` (true) or the fuel ran
out first (false).  Returns the full trace of pairs run, in order. -/
def run_dtors {P : Type} (f : P → List P) : Nat → Option (List P) →
    List P × Bool
  | _, none => ([], true)
  | 0, some _ => ([], false)
  | fuel + 1, some l =>
    let q := runPass f l none
    let r := run_dtors f fuel q.1
    (q.2 ++ r.1, r.2)

/-- All pairs registered, in order, while running the pairs of `l`. -/
def regsOf {P : Type} (f : P → List P) : List P → List P
  | [] => []
  | p :: rest => f p ++ regsOf f rest

/-- The list a `DTORS` slot holds (null reads as the empty list). -/
def optList {P : Type} : Option (List P) → List P
  | none => []
  | some l => l

/-- The drain loop as the spec describes it: run the current batch in
registration order, collect the pairs registered while doing so as the
next batch, and loop until a pass produces no new entries. -/
def drainSpec {P : Type} (f : P → List P) : Nat → List P → List P × Bool
  | 0, _ => ([], false)
  | fuel + 1, l =>
    if (regsOf f l).isEmpty then (l, true)
    else
      let r := drainSpec f fuel (regsOf f l)
      (l ++ r.1, r.2)

/-!
The Linux platform `register_dtor`: probe the weak symbol
`__cxa_thread_atexit_impl`; when non-null call it with
`(dtor, t, &__dso_handle)`, otherwise call `register_dtor_fallback(t, dtor)`.
The probe is an argument of every call (`cxa_available`), matching the
source's read of the weak symbol inside the function body.
-/

/-- Registrar state visible to the Linux `register_dtor`: the log of calls
made to the native hook `__cxa_thread_atexit_impl` (each call passes the
pair `(dtor, t)` together with `&__dso_handle`, recorded as the trailing
unit), and the fallback backend's `DTORS` slot. -/
structure LinuxRegState (P : Type) where
  native_calls : List (P × Unit)
  dtors : Option (List P)
deriving DecidableEq, Repr

/-- The Linux `register_dtor(t, dtor)`: read the weak symbol; if it is
non-null, delegate to the native hook (append the call to its log) and
return, touching nothing else; if it is null, hand the pair to
`register_dtor_fallback` (successful-allocation path `pushDtor`). -/
def register_dtor {P : Type} (cxa_available : Bool) (p : P)
    (st : LinuxRegState P) : LinuxRegState P :=
  if cxa_available then
    { st with native_calls := st.native_calls ++ [(p, ())] }
  else
    { st with dtors := pushDtor st.dtors p }

/-! Helper lemmas about the fallback backend. -/

theorem optList_none {P : Type} : optList (none : Option (List P)) = [] := rfl

theorem optList_some {P : Type} (l : List P) : optList (some l) = l := rfl

theorem pushDtor_ne_none {P : Type} (key : Option (List P)) (p : P) :
    pushDtor key p ≠ none := by
  cases key <;> simp [pushDtor]

theorem optList_pushDtor {P : Type} (key : Option (List P)) (p : P) :
    optList (pushDtor key p) = optList key ++ [p] := by
  cases key <;> rfl

theorem optList_foldl_pushDtor {P : Type} (l : List P) (k : Option (List P)) :
    optList (List.foldl pushDtor k l) = optList k ++ l := by
  induction l generalizing k with
  | nil => simp
  | cons p rest ih => simp [List.foldl_cons, ih, optList_pushDtor]

theorem foldl_pushDtor_eq_none_iff {P : Type} (l : List P) (k : Option (List P)) :
    List.foldl pushDtor k l = none ↔ k = none ∧ l = [] := by
  induction l generalizing k with
  | nil => simp
  | cons p rest ih => simp [List.foldl_cons, ih, pushDtor_ne_none]

theorem runPass_ran {P : Type} (f : P → List P) (l : List P)
    (k : Option (List P)) : (runPass f l k).2 = l := by
  induction l generalizing k with
  | nil => rfl
  | cons p rest ih => simp [runPass, ih]

theorem runPass_key_opt {P : Type} (f : P → List P) (l : List P)
    (k : Option (List P)) :
    optList (runPass f l k).1 = optList k ++ regsOf f l := by
  induction l generalizing k with
  | nil => simp [runPass, regsOf]
  | cons p rest ih => simp [runPass, regsOf, ih, runOne, optList_foldl_pushDtor]

theorem runPass_key_eq_none_iff {P : Type} (f : P → List P) (l : List P)
    (k : Option (List P)) :
    (runPass f l k).1 = none ↔ k = none ∧ regsOf f l = [] := by
  induction l generalizing k with
  | nil => simp [runPass, regsOf]
  | cons p rest ih =>
    simp [runPass, regsOf, ih, runOne, foldl_pushDtor_eq_none_iff, and_assoc]

theorem regsOf_append {P : Type} (f : P → List P) (l1 l2 : List P) :
    regsOf f (l1 ++ l2) = regsOf f l1 ++ regsOf f l2 := by
  induction l1 with
  | nil => rfl
  | cons p rest ih => simp [regsOf, ih]

theorem run_dtors_count {P : Type} (f : P → List P) (fuel : Nat)
    (ptr : Option (List P)) (h : (run_dtors f fuel ptr).2 = true) :
    ((run_dtors f fuel ptr).1).length
      = (optList ptr).length + (regsOf f ((run_dtors f fuel ptr).1)).length := by
  induction fuel generalizing ptr with
  | zero =>
    cases ptr with
    | none => simp [run_dtors, optList, regsOf]
    | some l => simp [run_dtors] at h
  | succ fuel ih =>
    cases ptr with
    | none => simp [run_dtors, optList, regsOf]
    | some l =>
      have h2 : (run_dtors f fuel (runPass f l none).1).2 = true := by
        simpa [run_dtors] using h
      have ihh := ih (runPass f l none).1 h2
      have hopt := runPass_key_opt f l none
      rw [optList_none, List.nil_append] at hopt
      rw [hopt] at ihh
      simp only [run_dtors, runPass_ran, List.length_append, regsOf_append,
        optList_some]
      omega

theorem run_dtors_eq_drainSpec {P : Type} (f : P → List P) (fuel : Nat)
    (l : List P) : run_dtors f fuel (some l) = drainSpec f fuel l := by
  induction fuel generalizing l with
  | zero => rfl
  | succ fuel ih =>
    by_cases h : regsOf f l = []
    · have hk : (runPass f l none).1 = none :=
        (runPass_key_eq_none_iff f l none).mpr ⟨rfl, h⟩
      simp [run_dtors, drainSpec, hk, runPass_ran, h]
    · have hk : (runPass f l none).1 = some (regsOf f l) := by
        cases hq : (runPass f l none).1 with
        | none => exact absurd ((runPass_key_eq_none_iff f l none).mp hq).2 h
        | some l2 =>
          have hl2 := runPass_key_opt f l none
          rw [hq, optList_some, optList_none, List.nil_append] at hl2
          rw [hl2]
      simp [run_dtors, drainSpec, hk, runPass_ran, h, ih]

/-! Helper lemmas about the storage cell. -/

theorem registerDtor_preserves {T : Type} (needs_drop : Bool)
    (s : CellState T) :
    (Key.registerDtor needs_drop s).1.value = s.value ∧
    (Key.registerDtor needs_drop s).1.dtor_running = s.dtor_running := by
  simp only [Key.registerDtor]
  split
  · exact ⟨rfl, rfl⟩
  · exact ⟨rfl, rfl⟩

theorem get_slot_of_not_running {T : Type} (needs_drop : Bool)
    (s : CellState T) (hc : (needs_drop && s.dtor_running) = false) :
    (Key.get needs_drop s).slot = some s.value := by
  simp only [Key.get]
  rw [hc]
  simp [(registerDtor_preserves needs_drop s).1]

theorem get_state_eq_or {T : Type} (needs_drop : Bool) (s : CellState T) :
    (Key.get needs_drop s).state = s ∨
    (Key.get needs_drop s).state = { s with dtor_registered := true } := by
  simp only [Key.get, Key.registerDtor]
  split
  · exact Or.inl rfl
  · split
    · exact Or.inl rfl
    · exact Or.inr rfl

theorem get_registered_noop {T : Type} (s : CellState T)
    (h : s.dtor_registered = true) :
    (Key.get true s).state = s ∧ (Key.get true s).registered = false := by
  cases hr : s.dtor_running <;> simp [Key.get, Key.registerDtor, h, hr]

theorem getIter_registered {T : Type} (s : CellState T) (m : Nat)
    (h : s.dtor_registered = true) : getIter true s m = (s, 0) := by
  induction m with
  | zero => rfl
  | succ m ih =>
    have hg := get_registered_noop s h
    simp [getIter, hg.1, hg.2, ih]

/-! Claim theorems. -/

/-- C1: for a type whose drop has an observable effect (`needs_drop = true`),
whenever the thread's `dtor_running` flag is true, `Key::get` returns `None`
("unavailable") and leaves the per-thread state untouched — it returns
neither the old nor a freshly-reinitialized value and performs no
registration; in particular a reentrant `get` made after `destroy_value`
has started on this thread (which sets `dtor_running`) returns `None`. -/
theorem get_unavailable_while_dtor_running {T : Type} (s : CellState T) :
    (s.dtor_running = true →
      (Key.get true s).slot = none ∧ (Key.get true s).state = s ∧
        (Key.get true s).registered = false) ∧
    (∀ macos : Bool, (Key.get true (destroy_value macos s).state).slot = none) := by
  constructor
  · intro h
    simp [Key.get, h]
  · intro macos
    cases macos <;> simp [Key.get, destroy_value]

theorem get_unavailable_while_dtor_running_witness :
    (Key.get true (⟨some 7, true, true⟩ : CellState Nat)).slot = none :=
  ((get_unavailable_while_dtor_running
    (⟨some 7, true, true⟩ : CellState Nat)).1 rfl).1

/-- C2: for a type whose drop is a no-op (`needs_drop = false`), every
`Key::get` call returns the slot — never `None`, whatever the flags hold —
and no such call reaches the platform registrar or changes any state. -/
theorem get_no_drop_always_available {T : Type} (s : CellState T) :
    (Key.get false s).slot = some s.value ∧
    (Key.get false s).registered = false ∧
    (Key.get false s).state = s := by
  simp [Key.get, Key.registerDtor]

/-- C3: for a type that needs cleanup, the first successful `Key::get` on a
thread invokes the platform registrar and sets `dtor_registered`; iterating
`get` any further number of times yields exactly one registration in total,
because `Key::register_dtor` is a no-op whenever `dtor_registered` already
holds. -/
theorem register_exactly_once {T : Type} (s : CellState T) (n : Nat) :
    (s.dtor_running = false → s.dtor_registered = false →
      (Key.get true s).registered = true ∧
      (Key.get true s).state.dtor_registered = true ∧
      (getIter true s (n + 1)).2 = 1) ∧
    (∀ s2 : CellState T, s2.dtor_registered = true →
      Key.registerDtor true s2 = (s2, false)) := by
  constructor
  · intro hrun hreg
    have hget : Key.get true s
        = { slot := some s.value, state := { s with dtor_registered := true },
            registered := true } := by
      simp [Key.get, Key.registerDtor, hrun, hreg]
    refine ⟨by rw [hget], by rw [hget], ?_⟩
    have hrest : getIter true ({ s with dtor_registered := true } : CellState T) n
        = ({ s with dtor_registered := true }, 0) :=
      getIter_registered _ n rfl
    simp [getIter, hget, hrest]
  · intro s2 h2
    simp [Key.registerDtor, h2]

theorem register_exactly_once_witness :
    (getIter true (Key.new Nat) 3).2 = 1 :=
  ((register_exactly_once (Key.new Nat) 2).1 rfl rfl).2.2

/-- C4: `run_dtors` drains the per-thread list and re-checks `DTORS` for
destructors registered during the drain, looping until a pass finds the
slot null: it equals the layered `drainSpec` (each pass runs the current
batch, the next batch is exactly the pairs registered during this pass, and
the loop ends only when a pass registers nothing); when the loop terminates
the number of pairs run equals the number of pairs initially pending plus
the number of pairs registered while running — every registered pair is run
exactly once; and within a single pass the drained pairs run in
registration order while fresh registrations accumulate in order. -/
theorem run_dtors_drains_all {P : Type} (f : P → List P) (fuel : Nat)
    (ptr : Option (List P)) :
    ((run_dtors f fuel ptr).2 = true →
      ((run_dtors f fuel ptr).1).length
        = (optList ptr).length + (regsOf f ((run_dtors f fuel ptr).1)).length) ∧
    (∀ (l : List P) (k : Option (List P)),
      (runPass f l k).2 = l ∧
      optList (runPass f l k).1 = optList k ++ regsOf f l) ∧
    (∀ l : List P, run_dtors f fuel (some l) = drainSpec f fuel l) :=
  ⟨fun h => run_dtors_count f fuel ptr h,
   fun l k => ⟨runPass_ran f l k, runPass_key_opt f l k⟩,
   fun l => run_dtors_eq_drainSpec f fuel l⟩

theorem run_dtors_drains_all_witness :
    ((run_dtors (fun d : Nat => if d = 0 then [1] else []) 3 (some [0])).1).length
      = (optList (some [0] : Option (List Nat))).length
        + (regsOf (fun d : Nat => if d = 0 then [1] else [])
            ((run_dtors (fun d : Nat => if d = 0 then [1] else [])
              3 (some [0])).1)).length :=
  (run_dtors_drains_all (fun d : Nat => if d = 0 then [1] else [])
    3 (some [0])).1 (by decide)

/-- C5 counterexample: after `destroy_value` returns, the `dtor_running`
flag is still true — the code never resets it to false, so the flag is not
"false again after the callback returns" as the claim states. -/
theorem dtor_running_not_cleared_after_destroy :
    (destroy_value false
      (⟨some 42, true, false⟩ : CellState Nat)).state.dtor_running ≠ false := by
  decide

/-- C5 (amended): `dtor_running` is false before the destructor callback
starts (false in a fresh cell, and preserved by `get`, `register_dtor` and
writes to the slot); `destroy_value` sets it to true as its first action,
before touching the value; and it remains true after the callback returns —
the code never resets it to false. -/
theorem dtor_running_lifecycle {T : Type} (needs_drop macos : Bool)
    (s : CellState T) (v : T) :
    (Key.new T).dtor_running = false ∧
    (Key.get needs_drop s).state.dtor_running = s.dtor_running ∧
    (Key.registerDtor needs_drop s).1.dtor_running = s.dtor_running ∧
    (setValue s v).dtor_running = s.dtor_running ∧
    (destroy_value macos s).steps.head? = some DestroyStep.setDtorRunning ∧
    (destroy_value macos s).state.dtor_running = true := by
  refine ⟨rfl, ?_, ?_, rfl, ?_, ?_⟩
  · rcases get_state_eq_or needs_drop s with hs | hs <;> rw [hs]
  · exact (registerDtor_preserves needs_drop s).2
  · cases macos <;> simp [destroy_value]
  · cases macos <;> simp [destroy_value]

/-- C6: `destroy_value`, given a cell, sets the thread's `dtor_running`
flag as its first action, before any step that touches the value, and then
consumes the contained value; on macOS the value is moved out of the slot
(`ptr::read`) before being dropped, while on other platforms it is dropped
in place (`ptr::drop_in_place`). -/
theorem destroy_value_discipline {T : Type} (macos : Bool) (s : CellState T) :
    (destroy_value macos s).steps.head? = some DestroyStep.setDtorRunning ∧
    (destroy_value macos s).steps
      = (if macos then [DestroyStep.setDtorRunning, DestroyStep.moveOut]
         else [DestroyStep.setDtorRunning, DestroyStep.dropInPlace]) ∧
    (destroy_value macos s).state.dtor_running = true ∧
    (destroy_value macos s).consumed = s.value := by
  cases macos <;> simp [destroy_value]

/-- C7: the Linux `register_dtor` probes the weak symbol
`__cxa_thread_atexit_impl` on every call, taking the probe's outcome as an
input of that call independently of any earlier call or state: when the
symbol is non-null the registration is delegated to the native hook —
logging the `(dtor, t)` pair together with the DSO handle — and nothing
else changes; when it is null the pair is handed to
`register_dtor_fallback`, and the native log is untouched.  The final
conjunct exercises a call sequence whose probes differ: the second call
falls back even though the first delegated natively. -/
theorem register_dtor_probe_dispatch {P : Type} (p q : P)
    (st : LinuxRegState P) :
    ((register_dtor true p st).native_calls = st.native_calls ++ [(p, ())] ∧
      (register_dtor true p st).dtors = st.dtors) ∧
    ((register_dtor false p st).dtors = pushDtor st.dtors p ∧
      (register_dtor false p st).native_calls = st.native_calls ∧
      register_dtor_fallback true st.dtors p
        = some ((register_dtor false p st).dtors)) ∧
    (register_dtor false q (register_dtor true p st)).dtors
      = pushDtor st.dtors q := by
  refine ⟨⟨rfl, rfl⟩, ⟨rfl, rfl, ?_⟩, rfl⟩
  cases h : st.dtors <;> simp [register_dtor, register_dtor_fallback, pushDtor, h]

/-- C8: in the fallback backend, when registering requires allocating the
per-thread list and the allocation fails, `register_dtor_fallback` fails
and that failure surfaces synchronously to its caller (`none`); it never
returns success without the pair actually appended, and failure happens
only on the allocating path. -/
theorem fallback_alloc_failure_surfaces {P : Type} (alloc_ok : Bool)
    (key : Option (List P)) (p : P) :
    (∀ k2, register_dtor_fallback alloc_ok key p = some k2 →
      optList k2 = optList key ++ [p]) ∧
    (register_dtor_fallback alloc_ok key p = none →
      alloc_ok = false ∧ key = none) ∧
    (alloc_ok = true →
      register_dtor_fallback alloc_ok key p = some (pushDtor key p)) := by
  cases alloc_ok <;> cases key <;>
    simp [register_dtor_fallback, pushDtor, optList]

theorem fallback_alloc_failure_surfaces_witness :
    optList (some [1, 7] : Option (List Nat))
      = optList (some [1] : Option (List Nat)) ++ [7] :=
  (fallback_alloc_failure_surfaces true (some [1]) 7).1 (some [1, 7]) rfl

/-- C9: storing a value `v` through the slot and reading it back through a
later `Key::get` on the same thread (destructor not running, no
intervening write) yields `v` unchanged; and `get` itself never alters the
stored value. -/
theorem round_trip {T : Type} (needs_drop : Bool) (s : CellState T) (v : T) :
    (s.dtor_running = false →
      (Key.get needs_drop (setValue s v)).slot = some (some v)) ∧
    (Key.get needs_drop s).state.value = s.value := by
  constructor
  · intro h
    have hc : (needs_drop && (setValue s v).dtor_running) = false := by
      simp [setValue, h]
    exact get_slot_of_not_running needs_drop (setValue s v) hc
  · rcases get_state_eq_or needs_drop s with hs | hs <;> rw [hs]

theorem round_trip_witness :
    (Key.get true (setValue (Key.new Nat) 42)).slot = some (some 42) :=
  (round_trip true (Key.new Nat) 42).1 rfl

/-- C10: `destroy_value` modifies only the `dtor_running` flag and consumes
the contained value: the value slot keeps its contents (it is never
overwritten with `None`) and `dtor_registered` is unchanged, yet a
subsequent `Key::get` on that thread returns `None` — the observable
emptiness comes solely from `get` checking `dtor_running`, not from the
slot holding `None`. -/
theorem destroy_value_frame {T : Type} (macos : Bool) (s : CellState T) :
    (destroy_value macos s).state.value = s.value ∧
    (destroy_value macos s).state.dtor_registered = s.dtor_registered ∧
    (destroy_value macos s).state.dtor_running = true ∧
    (destroy_value macos s).consumed = s.value ∧
    (Key.get true (destroy_value macos s).state).slot = none := by
  cases macos <;> simp [destroy_value, Key.get]

end FastThreadLocal
